import Mathlib

/-!
Shallow embedding of `src/book_dashboard.py` (a Streamlit dashboard managing a
SQLite table of books) and proofs about its store operations, metrics,
view filter, profit-distribution aggregation and CSV export.

Modelling conventions:
* SQLite `REAL` values (`cost`, `price`) are embedded as exact rationals
  (`Rat`); the claims under study are about structure and algebra, not about
  binary floating-point rounding.
* The `books` table is a list of rows in rowid (insertion) order together
  with the `sqlite_sequence` counter `seq` that `AUTOINCREMENT` maintains:
  a fresh insert receives id `seq + 1` and `seq` is bumped, and `seq` is not
  touched by `UPDATE`/`DELETE`, which is exactly SQLite's never-reuse
  guarantee for `AUTOINCREMENT` keys.
* Each Python store function returns `None` and raises nothing on every
  path (`sqlite3` raises only on storage-level failures, which are outside
  this model).  The embedded operations therefore return the new state
  paired with an `Option StoreError` error channel that is `none` on every
  path; the spec's `ValidationError`/`NotFound` would have to appear in that
  channel.
-/

namespace BookDashboard

/-- A row of the `books` table:
`id INTEGER PRIMARY KEY AUTOINCREMENT, title TEXT NOT NULL,
cost REAL NOT NULL, price REAL NOT NULL` (`init_db`, lines 42-54). -/
structure Book where
  id : Nat
  title : String
  cost : Rat
  price : Rat
deriving DecidableEq, Repr

/-- The persistent state: the `books` table in rowid order plus the
`sqlite_sequence` counter backing `AUTOINCREMENT`. -/
structure DB where
  books : List Book
  seq : Nat
deriving DecidableEq, Repr

/-- The error taxonomy named by the spec.  The Python store functions never
produce either value: their error channel is `none` on every path. -/
inductive StoreError
  | validationError
  | notFound
deriving DecidableEq, Repr

/-- Model of `init_db()` (lines 42-54): `CREATE TABLE IF NOT EXISTS` — on a fresh
store the table is empty and the sequence counter starts at 0. -/
def init_db : DB := ⟨[], 0⟩

/-- Stable insertion (by `id`, ascending) used to model `ORDER BY id ASC`. -/
def insertById (b : Book) : List Book → List Book
  | [] => [b]
  | c :: cs => if c.id ≤ b.id then c :: insertById b cs else b :: c :: cs

/-- Sort a list of rows ascending by `id` (stable insertion sort),
modelling the `ORDER BY id ASC` of `fetch_books_df`. -/
def sortById : List Book → List Book
  | [] => []
  | b :: bs => insertById b (sortById bs)

/-- Model of `fetch_books_df()` (lines 56-60):
`SELECT id, title, cost, price FROM books ORDER BY id ASC`. -/
def fetch_books_df (db : DB) : List Book := sortById db.books

/-- Model of `add_book_db(title, cost, price)` (lines 62-67):
`INSERT INTO books (title, cost, price) VALUES (?, ?, ?)` — no validation of
any argument; `AUTOINCREMENT` assigns id `seq + 1`.  The function returns
`None` and raises nothing, hence the `none` error component. -/
def add_book_db (db : DB) (title : String) (cost price : Rat) :
    DB × Option StoreError :=
  (⟨db.books ++ [⟨db.seq + 1, title, cost, price⟩], db.seq + 1⟩, none)

/-- Model of `update_book_db(book_id, title, cost, price)` (lines 69-74):
`UPDATE books SET title=?, cost=?, price=? WHERE id=?` — rewrites the three
mutable fields of every row whose id matches, keeps the id, performs no
validation, never reports whether a row matched. -/
def update_book_db (db : DB) (book_id : Nat) (title : String)
    (cost price : Rat) : DB × Option StoreError :=
  (⟨db.books.map (fun b =>
      if b.id = book_id then ⟨b.id, title, cost, price⟩ else b), db.seq⟩,
   none)

/-- Model of `delete_book_db(book_id)` (lines 76-81):
`DELETE FROM books WHERE id=?` — removes matching rows, never reports
whether any row matched. -/
def delete_book_db (db : DB) (book_id : Nat) : DB × Option StoreError :=
  (⟨db.books.filter (fun b => b.id != book_id), db.seq⟩, none)

/-- Outcome channel of the "Adicionar livro" form handler. -/
inductive FormOutcome
  | errorEmptyTitle
  | added
deriving DecidableEq, Repr

/-- Python `str.strip()`: drop leading and trailing whitespace. -/
def strip (s : String) : String :=
  ⟨((s.data.dropWhile Char.isWhitespace).reverse.dropWhile
      Char.isWhitespace).reverse⟩

/-- The "Adicionar livro" form handler (lines 229-235): on submit it shows
an error and performs no store call when `title.strip()` is falsy, and
otherwise calls `add_book_db(title.strip(), cost, price)`. -/
def submit_add (db : DB) (title : String) (cost price : Rat) :
    DB × FormOutcome :=
  if strip title = "" then (db, .errorEmptyTitle)
  else ((add_book_db db (strip title) cost price).1, .added)

/-- Model of `total_cost` (line 191): `df['cost'].sum() if not df.empty else 0.0`. -/
def total_cost (df : List Book) : Rat :=
  if df.isEmpty then 0 else (df.map Book.cost).sum

/-- Model of `total_price` (line 192): `df['price'].sum() if not df.empty else 0.0`. -/
def total_price (df : List Book) : Rat :=
  if df.isEmpty then 0 else (df.map Book.price).sum

/-- Model of `total_profit` (line 193):
`(df['price'] - df['cost']).sum() if not df.empty else 0.0`. -/
def total_profit (df : List Book) : Rat :=
  if df.isEmpty then 0 else (df.map (fun b => b.price - b.cost)).sum

/-- A row of the frame returned by `apply_filters`: the four columns of
`fetch_books_df` plus the optional `profit` column that the profit-mode
branch assigns (line 177). -/
structure Row where
  id : Nat
  title : String
  cost : Rat
  price : Rat
  profit : Option Rat
deriving DecidableEq, Repr

/-- A freshly fetched row: no `profit` column yet. -/
def Row.ofBook (b : Book) : Row := ⟨b.id, b.title, b.cost, b.price, none⟩

/-- Forget the added `profit` column. -/
def Row.toBook (r : Row) : Book := ⟨r.id, r.title, r.cost, r.price⟩

/-- The characters to which Python `re` gives special meaning in a pattern
(the metacharacters honoured by `str.contains` under its default
`regex=True`): `. * + ? ( ) [ ] \x7b \x7d | ^ $ \`. -/
def regexMeta : List Char :=
  ['.', '*', '+', '?', '(', ')', '[', ']', '\x7b', '\x7d', '|', '^', '$',
   '\\']

/-- One pattern character against one subject character under
`re.IGNORECASE`, for patterns inside the modelled fragment (see
`str_contains_ci`): the metacharacter `.` matches any character except a
newline; a character that is not a metacharacter matches itself
case-insensitively. -/
def charMatch (p c : Char) : Bool :=
  if p = '.' then c != '\n' else p.toLower == c.toLower

/-- Does the pattern match some prefix of the subject? -/
def matchPrefix : List Char → List Char → Bool
  | [], _ => true
  | _ :: _, [] => false
  | p :: ps, c :: cs => charMatch p c && matchPrefix ps cs

/-- Model of `re.search` for the fragment: the pattern matches at some position of
the subject. -/
def reSearch (pat : List Char) : List Char → Bool
  | [] => matchPrefix pat []
  | c :: cs => matchPrefix pat (c :: cs) || reSearch pat cs

/-- Model of `df2['title'].str.contains(search, case=False, na=False)` (line 175):
pandas' default `regex=True` compiles `search` with `re.IGNORECASE` and
keeps the rows where `re.search` finds a match (`na=False` is irrelevant:
`title` is `NOT NULL`).  The embedding is faithful exactly on the fragment
of patterns whose characters are `.` or non-metacharacters (`regexMeta`
lists the rest): it renders `.` and literal characters as `re` does, and no
theorem below evaluates it on a pattern outside that fragment — the
program's behaviour there (e.g. `re.search("x*", t)` zero-width-matches
every title; `"("` raises `re.error`) is not modelled. -/
def str_contains_ci (pat s : String) : Bool := reSearch pat.data s.data

/-- Model of `apply_filters(df_orig)` (lines 172-182), with the two module-level
widget values `search` and `filter_profit` made explicit parameters.
The search filter runs first; when the profit selectbox is not "Todos" a
`profit` column is assigned and the frame is filtered on its sign. -/
def apply_filters (search filter_profit : String) (df_orig : List Book) :
    List Row :=
  let df2 := df_orig.map Row.ofBook
  let df2 :=
    if search != "" then df2.filter (fun r => str_contains_ci search r.title)
    else df2
  if filter_profit != "Todos" then
    let df3 := df2.map (fun r => { r with profit := some (r.price - r.cost) })
    if filter_profit = "Lucro positivo" then
      df3.filter (fun r =>
        match r.profit with | some q => decide (0 < q) | none => false)
    else
      df3.filter (fun r =>
        match r.profit with | some q => decide (q ≤ 0) | none => false)
  else df2

/-- Case-insensitive substring containment — the relation the spec says the
search filter uses: the lower-cased needle occurs contiguously in the
lower-cased haystack. -/
def substring_ci (needle hay : String) : Bool :=
  let n := needle.data.map Char.toLower
  let h := hay.data.map Char.toLower
  (List.range (h.length + 1)).any (fun i => n.isPrefixOf (h.drop i))

/-- The record-keeping predicate the spec ascribes to the profit modes. -/
def profitKeep (mode : String) (b : Book) : Bool :=
  if mode = "Todos" then true
  else if mode = "Lucro positivo" then decide (0 < b.price - b.cost)
  else decide (b.price - b.cost ≤ 0)

/-- pandas `Series.sort_values(ascending=False)` (`pandas.core.sorting.
nargsort`) computes an ascending argsort of the values — stable on the
sizes at issue, where numpy's introsort runs its insertion-sort path — and
then reverses it.  The descending order of the pairs is therefore the
reverse of a stable ascending insertion sort. -/
def sort_values_desc (l : List (String × Rat)) : List (String × Rat) :=
  (List.insertionSort (fun a b => a.2 ≤ b.2) l).reverse

/-- The pie-chart aggregation (lines 285-295):
`df['profit'] = price - cost`; `prof = df.set_index('title')['profit']
.abs().sort_values(ascending=False)`; if more than 8 entries remain, keep
the first 8 and bucket the rest into a final entry labelled `'Outros'`
whose value is their sum. -/
def profit_distribution (df : List Book) : List String × List Rat :=
  let prof := sort_values_desc (df.map (fun b => (b.title, |b.price - b.cost|)))
  if 8 < prof.length then
    ((prof.take 8).map Prod.fst ++ ["Outros"],
     (prof.take 8).map Prod.snd ++ [((prof.drop 8).map Prod.snd).sum])
  else
    (prof.map Prod.fst, prof.map Prod.snd)

/-- Does a CSV field need quoting under `csv.QUOTE_MINIMAL`? -/
def csvNeedsQuote (s : String) : Bool :=
  s.data.any (fun c => c = ',' || c = '"' || c = '\n' || c = '\r')

/-- Double every double quote of a quoted CSV field. -/
def csvEscape (s : String) : String :=
  ⟨s.data.foldr
    (fun c acc => if c = '"' then '"' :: '"' :: acc else c :: acc) []⟩

/-- Render one CSV field with `csv.QUOTE_MINIMAL`. -/
def csvField (s : String) : String :=
  if csvNeedsQuote s then "\"" ++ csvEscape s ++ "\"" else s

/-- The `%.2f` format that `to_csv(float_format="%.2f")` applies to the
float columns `cost` and `price`, transcribed to the exact rationals of the
model (rounding half away from zero; the developments below only format
values that are exact hundredths, on which every rounding convention
agrees). -/
def fmt2 (q : Rat) : String :=
  let m : Rat := if q < 0 then -q else q
  let n : Nat := (⌊m * 100 + 1 / 2⌋).toNat
  (if q < 0 then "-" else "") ++ toString (n / 100) ++ "." ++
    (if n % 100 < 10 then "0" else "") ++ toString (n % 100)

/-- One data row of `df.to_csv(index=False, float_format="%.2f")` on the
4-column frame of `fetch_books_df`: the integer `id` printed plainly
(`float_format` touches only float columns), the quoted-as-needed title,
then the two `%.2f`-formatted floats. -/
def csvRow (b : Book) : String :=
  toString b.id ++ "," ++ csvField b.title ++ "," ++ fmt2 b.cost ++ ","
    ++ fmt2 b.price ++ "\n"

/-- The header row the export emits: the sidebar button (lines 158-165)
serialises `fetch_books_df()` directly, so the columns are the four raw
store columns. -/
def csv_header : String := "id,title,cost,price"

/-- The text that `df.to_csv(index=False, float_format="%.2f")` produces
for the exported frame. -/
def to_csv_text (df : List Book) : String :=
  csv_header ++ "\n" ++ String.join (df.map csvRow)

/-- Model of `to_csv_bytes(df)` (lines 104-105): `.encode('utf-8-sig')` prepends the
byte-order mark EF BB BF to the UTF-8 encoding of the text. -/
def to_csv_bytes (df : List Book) : List Nat :=
  [0xEF, 0xBB, 0xBF] ++ (to_csv_text df).toUTF8.toList.map (fun u => u.toNat)

theorem sum_map_sub (l : List Book) :
    (l.map (fun b => b.price - b.cost)).sum =
      (l.map Book.price).sum - (l.map Book.cost).sum := by
  induction l with
  | nil => simp
  | cons b bs ih => simp [ih]; ring

/-- C6: for every snapshot, `total_profit = total_price - total_cost`, and
on the empty snapshot all three totals are `0` rather than an error. -/
theorem totals_identity :
    (∀ df : List Book, total_profit df = total_price df - total_cost df) ∧
      total_cost [] = 0 ∧ total_price [] = 0 ∧ total_profit [] = 0 := by
  refine ⟨fun df => ?_, rfl, rfl, rfl⟩
  cases df with
  | nil => simp [total_cost, total_price, total_profit]
  | cons b bs =>
      simp only [total_cost, total_price, total_profit, List.isEmpty_cons,
        if_neg Bool.false_ne_true, sum_map_sub]

/-- C1 counterexample: the store's add operation, called with a title that
is blank after trimming and with negative cost and price, performs the
write (the persisted table changes) and raises no `ValidationError`. -/
theorem add_accepts_invalid_input :
    strip " " = "" ∧
    (add_book_db init_db " " (-1) (-1)).1.books ≠ init_db.books ∧
    (add_book_db init_db " " (-1) (-1)).2 ≠ some StoreError.validationError := by
  refine ⟨rfl, ?_, ?_⟩ <;> simp [add_book_db, init_db]

/-- C1 (amended): the store's add and update operations perform the write
unconditionally and never raise `ValidationError`, even when the title is
empty after trimming or cost/price is negative; rejection of empty titles
happens only in the caller's form handler, which does not invoke the store
when the trimmed title is empty (negative cost/price are prevented only by
the input widgets' `min_value=0.0`). -/
theorem store_validation_at_caller (db : DB) (t : String) (c p : Rat)
    (i : Nat) (ht : strip t = "") :
    (add_book_db db t c p).1.books = db.books ++ [⟨db.seq + 1, t, c, p⟩] ∧
    (add_book_db db t c p).2 = none ∧
    (update_book_db db i t c p).2 = none ∧
    submit_add db t c p = (db, FormOutcome.errorEmptyTitle) :=
  ⟨rfl, rfl, rfl, by simp [submit_add, ht]⟩

theorem store_validation_at_caller_witness :
    strip " " = "" ∧
    ((add_book_db init_db " " (-1) (-1)).1.books =
        init_db.books ++ [⟨init_db.seq + 1, " ", -1, -1⟩] ∧
      (add_book_db init_db " " (-1) (-1)).2 = none ∧
      (update_book_db init_db 3 " " (-1) (-1)).2 = none ∧
      submit_add init_db " " (-1) (-1) = (init_db, FormOutcome.errorEmptyTitle)) :=
  ⟨rfl, store_validation_at_caller init_db " " (-1) (-1) 3 rfl⟩

/-- C3 counterexample: deleting or updating a nonexistent id reports
nothing at all — the operations' error channel is `none`, not `NotFound`
(the state is indeed unchanged). -/
theorem missing_id_reports_nothing :
    (delete_book_db init_db 1).2 = none ∧
    (delete_book_db init_db 1).2 ≠ some StoreError.notFound ∧
    (update_book_db init_db 1 "x" 0 0).2 ≠ some StoreError.notFound ∧
    (delete_book_db init_db 1).1 = init_db :=
  ⟨rfl, by simp [delete_book_db], by simp [update_book_db],
    by simp [delete_book_db, init_db]⟩

/-- C3 (amended): update and delete on an id not present in the store
change no state, create no row and raise no error that aborts the caller,
but they do not report `NotFound` — both return silently (the error channel
is `none`), and a second delete of the same id is likewise a silent
no-op. -/
theorem missing_id_silent_noop (db : DB) (i : Nat) (t : String) (c p : Rat)
    (h : i ∉ db.books.map Book.id) :
    update_book_db db i t c p = (db, none) ∧
    delete_book_db db i = (db, none) ∧
    ∀ (db2 : DB) (j : Nat),
      delete_book_db (delete_book_db db2 j).1 j =
        ((delete_book_db db2 j).1, none) := by
  have hne : ∀ b ∈ db.books, b.id ≠ i := by
    intro b hb he
    exact h (he ▸ List.mem_map_of_mem Book.id hb)
  refine ⟨?_, ?_, ?_⟩
  · have : db.books.map (fun b =>
        if b.id = i then ⟨b.id, t, c, p⟩ else b) = db.books := by
      rw [List.map_congr_left (fun b hb => if_neg (hne b hb)), List.map_id']
    simp [update_book_db, this]
  · have : db.books.filter (fun b => b.id != i) = db.books :=
      List.filter_eq_self.mpr (fun b hb => by
        simpa using hne b hb)
    simp [delete_book_db, this]
  · intro db2 j
    simp [delete_book_db, List.filter_filter]

theorem missing_id_silent_noop_witness :
    (2 ∉ (DB.mk [⟨1, "a", 1, 2⟩] 1).books.map Book.id) ∧
    (update_book_db ⟨[⟨1, "a", 1, 2⟩], 1⟩ 2 "x" 0 0 =
        (⟨[⟨1, "a", 1, 2⟩], 1⟩, none) ∧
      delete_book_db ⟨[⟨1, "a", 1, 2⟩], 1⟩ 2 = (⟨[⟨1, "a", 1, 2⟩], 1⟩, none) ∧
      ∀ (db2 : DB) (j : Nat),
        delete_book_db (delete_book_db db2 j).1 j =
          ((delete_book_db db2 j).1, none)) :=
  ⟨by decide, missing_id_silent_noop ⟨[⟨1, "a", 1, 2⟩], 1⟩ 2 "x" 0 0 (by decide)⟩

/-- C8: updating an existing id rewrites exactly the row holding that id —
its title, cost and price become the given values while its id survives —
and every other position of the table, the sequence counter, and the error
channel are untouched. -/
theorem update_existing_changes_only_target (db : DB) (i : Nat) (t : String)
    (c p : Rat) (hnodup : (db.books.map Book.id).Nodup)
    (hmem : i ∈ db.books.map Book.id) :
    (update_book_db db i t c p).2 = none ∧
    (update_book_db db i t c p).1.seq = db.seq ∧
    (update_book_db db i t c p).1.books.length = db.books.length ∧
    ∃ k : Nat, (db.books.map Book.id)[k]? = some i ∧
      (update_book_db db i t c p).1.books[k]? = some ⟨i, t, c, p⟩ ∧
      ∀ j : Nat, j ≠ k →
        (update_book_db db i t c p).1.books[j]? = db.books[j]? := by
  obtain ⟨k, hk⟩ := List.mem_iff_getElem?.mp hmem
  refine ⟨rfl, rfl, by simp [update_book_db], k, hk, ?_, ?_⟩
  · have hk2 : ∃ b, db.books[k]? = some b ∧ b.id = i := by
      rw [List.getElem?_map] at hk
      cases hb : db.books[k]? with
      | none => rw [hb] at hk; simp at hk
      | some b =>
          rw [hb] at hk
          simp only [Option.map_some', Option.some.injEq] at hk
          exact ⟨b, rfl, hk⟩
    obtain ⟨b, hb, hbi⟩ := hk2
    simp [update_book_db, List.getElem?_map, hb, hbi]
  · intro j hj
    simp only [update_book_db, List.getElem?_map]
    cases hb : db.books[j]? with
    | none => simp
    | some b =>
        simp only [Option.map_some']
        by_cases hbi : b.id = i
        · exfalso
          have hjlen : j < (db.books.map Book.id).length := by
            obtain ⟨hlt, -⟩ := List.getElem?_eq_some.mp hb
            simpa using hlt
          have h1 : (db.books.map Book.id)[j]? = some i := by
            rw [List.getElem?_map, hb, Option.map_some', hbi]
          exact hj (List.getElem?_inj hjlen hnodup (h1.trans hk.symm))
        · simp [hbi]

theorem update_existing_changes_only_target_witness :
    ((((DB.mk [⟨1, "a", 1, 2⟩, ⟨2, "b", 3, 4⟩] 2).books.map Book.id).Nodup ∧
        2 ∈ (DB.mk [⟨1, "a", 1, 2⟩, ⟨2, "b", 3, 4⟩] 2).books.map Book.id)) ∧
    ((update_book_db ⟨[⟨1, "a", 1, 2⟩, ⟨2, "b", 3, 4⟩], 2⟩ 2 "c" 5 6).2 =
        none ∧
      (update_book_db ⟨[⟨1, "a", 1, 2⟩, ⟨2, "b", 3, 4⟩], 2⟩ 2 "c" 5 6).1.seq =
        (DB.mk [⟨1, "a", 1, 2⟩, ⟨2, "b", 3, 4⟩] 2).seq ∧
      (update_book_db ⟨[⟨1, "a", 1, 2⟩, ⟨2, "b", 3, 4⟩], 2⟩ 2 "c"
            5 6).1.books.length =
        (DB.mk [⟨1, "a", 1, 2⟩, ⟨2, "b", 3, 4⟩] 2).books.length ∧
      ∃ k : Nat,
        ((DB.mk [⟨1, "a", 1, 2⟩, ⟨2, "b", 3, 4⟩] 2).books.map Book.id)[k]? =
          some 2 ∧
        (update_book_db ⟨[⟨1, "a", 1, 2⟩, ⟨2, "b", 3, 4⟩], 2⟩ 2 "c"
              5 6).1.books[k]? =
          some ⟨2, "c", 5, 6⟩ ∧
        ∀ j : Nat, j ≠ k →
          (update_book_db ⟨[⟨1, "a", 1, 2⟩, ⟨2, "b", 3, 4⟩], 2⟩ 2 "c"
                5 6).1.books[j]? =
            (DB.mk [⟨1, "a", 1, 2⟩, ⟨2, "b", 3, 4⟩] 2).books[j]?) :=
  ⟨⟨by decide, by decide⟩,
    update_existing_changes_only_target ⟨[⟨1, "a", 1, 2⟩, ⟨2, "b", 3, 4⟩], 2⟩
      2 "c" 5 6 (by decide) (by decide)⟩

/-- The store invariant SQLite maintains for `books`: rows sit in strictly
increasing id order (each insert appends the fresh id `seq + 1`), and every
live id is bounded by the sequence counter, which `AUTOINCREMENT` never
decreases — ids are never reused. -/
def WF (db : DB) : Prop :=
  db.books.Pairwise (fun a b => a.id < b.id) ∧ ∀ b ∈ db.books, b.id ≤ db.seq

theorem insertById_of_lt (b : Book) (l : List Book)
    (h : ∀ c ∈ l, b.id < c.id) : insertById b l = b :: l := by
  cases l with
  | nil => rfl
  | cons c cs =>
      simp only [insertById,
        if_neg (Nat.not_le.mpr (h c (List.mem_cons_self c cs)))]

theorem sortById_of_sorted (l : List Book)
    (h : l.Pairwise (fun a b => a.id < b.id)) : sortById l = l := by
  induction l with
  | nil => rfl
  | cons b bs ih =>
      obtain ⟨hhead, htail⟩ := List.pairwise_cons.mp h
      rw [sortById, ih htail, insertById_of_lt b bs hhead]

/-- C9: on a well-formed store, `add` with valid input appends exactly one
new record carrying the given fields and the freshly assigned id
`seq + 1`, which is strictly greater than every live id and not previously
live; the listing is the old listing plus that one record, well-formedness
(hence uniqueness of ids) is preserved, and delete/update leave the
sequence counter alone, so freshness holds across intervening deletes. -/
theorem add_assigns_fresh_monotone_id (db : DB) (t : String) (c p : Rat)
    (hwf : WF db) (ht : strip t ≠ "") (hc : 0 ≤ c) (hp : 0 ≤ p) :
    (∀ b ∈ db.books, b.id < db.seq + 1) ∧
    db.seq + 1 ∉ db.books.map Book.id ∧
    (add_book_db db t c p).1.seq = db.seq + 1 ∧
    fetch_books_df (add_book_db db t c p).1 =
      fetch_books_df db ++ [⟨db.seq + 1, t, c, p⟩] ∧
    WF (add_book_db db t c p).1 ∧
    ((add_book_db db t c p).1.books.map Book.id).Nodup ∧
    (∀ j : Nat, (delete_book_db db j).1.seq = db.seq ∧
      WF (delete_book_db db j).1) ∧
    ∀ (j : Nat) (t2 : String) (c2 p2 : Rat),
      (update_book_db db j t2 c2 p2).1.seq = db.seq := by
  obtain ⟨hsort, hbound⟩ := hwf
  have hlt : ∀ b ∈ db.books, b.id < db.seq + 1 :=
    fun b hb => Nat.lt_succ_of_le (hbound b hb)
  have hnotmem : db.seq + 1 ∉ db.books.map Book.id := by
    intro hmem
    obtain ⟨b, hb, hbi⟩ := List.mem_map.mp hmem
    exact absurd hbi (Nat.ne_of_lt (hlt b hb))
  have hsort2 : (db.books ++ [Book.mk (db.seq + 1) t c p]).Pairwise
      (fun a b => a.id < b.id) := by
    rw [List.pairwise_append]
    refine ⟨hsort, List.pairwise_singleton _ _, ?_⟩
    intro a ha b hb
    rw [List.mem_singleton] at hb
    subst hb
    exact hlt a ha
  refine ⟨hlt, hnotmem, rfl, ?_, ⟨hsort2, ?_⟩, ?_, ?_, fun j t2 c2 p2 => rfl⟩
  · show sortById (db.books ++ [_]) = sortById db.books ++ [_]
    rw [sortById_of_sorted _ hsort2, sortById_of_sorted _ hsort]
  · intro b hb
    rcases List.mem_append.mp hb with h | h
    · exact Nat.le_succ_of_le (hbound b h)
    · rw [List.mem_singleton] at h
      subst h
      exact Nat.le_refl _
  · exact List.Pairwise.map Book.id (fun a b h => Nat.ne_of_lt h) hsort2
  · intro j
    refine ⟨rfl, List.Pairwise.filter _ hsort, ?_⟩
    intro b hb
    exact hbound b (List.mem_of_mem_filter hb)

theorem add_assigns_fresh_monotone_id_witness :
    (WF ⟨[⟨1, "a", 1, 2⟩], 1⟩ ∧ strip "x" ≠ "" ∧ (0 : Rat) ≤ 1 ∧
      (0 : Rat) ≤ 2) ∧
    ((∀ b ∈ (DB.mk [⟨1, "a", 1, 2⟩] 1).books, b.id < 1 + 1) ∧
      1 + 1 ∉ (DB.mk [⟨1, "a", 1, 2⟩] 1).books.map Book.id ∧
      (add_book_db ⟨[⟨1, "a", 1, 2⟩], 1⟩ "x" 1 2).1.seq = 1 + 1 ∧
      fetch_books_df (add_book_db ⟨[⟨1, "a", 1, 2⟩], 1⟩ "x" 1 2).1 =
        fetch_books_df ⟨[⟨1, "a", 1, 2⟩], 1⟩ ++ [⟨1 + 1, "x", 1, 2⟩] ∧
      WF (add_book_db ⟨[⟨1, "a", 1, 2⟩], 1⟩ "x" 1 2).1 ∧
      ((add_book_db ⟨[⟨1, "a", 1, 2⟩], 1⟩ "x" 1 2).1.books.map Book.id).Nodup ∧
      (∀ j : Nat,
        (delete_book_db ⟨[⟨1, "a", 1, 2⟩], 1⟩ j).1.seq =
            (DB.mk [⟨1, "a", 1, 2⟩] 1).seq ∧
          WF (delete_book_db ⟨[⟨1, "a", 1, 2⟩], 1⟩ j).1) ∧
      ∀ (j : Nat) (t2 : String) (c2 p2 : Rat),
        (update_book_db ⟨[⟨1, "a", 1, 2⟩], 1⟩ j t2 c2 p2).1.seq =
          (DB.mk [⟨1, "a", 1, 2⟩] 1).seq) :=
  ⟨⟨⟨by decide, by decide⟩, by decide, by decide, by decide⟩,
    add_assigns_fresh_monotone_id ⟨[⟨1, "a", 1, 2⟩], 1⟩ "x" 1 2
      ⟨by decide, by decide⟩ (by decide) (by decide) (by decide)⟩

instance : IsTotal (String × Rat) (fun a b => a.2 ≤ b.2) :=
  ⟨fun a b => le_total a.2 b.2⟩

instance : IsTrans (String × Rat) (fun a b => a.2 ≤ b.2) :=
  ⟨fun _ _ _ h1 h2 => le_trans h1 h2⟩

/-- Two records with equal absolute profit, in snapshot order A then B. -/
def dfEqual : List Book := [⟨1, "A", 0, 5⟩, ⟨2, "B", 0, 5⟩]

/-- C4 counterexample: on two records of equal magnitude the pie-chart
labels come out as B then A — the reverse of their snapshot order, not the
preserved input order the claim asserts. -/
theorem pie_sort_reorders_equal_magnitudes :
    (profit_distribution dfEqual).1 = ["B", "A"] ∧
    (["B", "A"] : List String) ≠ ["A", "B"] := by
  constructor
  · norm_num [profit_distribution, dfEqual, sort_values_desc,
      List.insertionSort, List.orderedInsert]
  · decide

theorem insertionSort_of_const_val (v : Rat) :
    ∀ l : List (String × Rat), (∀ x ∈ l, x.2 = v) →
      List.insertionSort (fun a b => a.2 ≤ b.2) l = l := by
  intro l
  induction l with
  | nil => intro _; rfl
  | cons x xs ih =>
      intro h
      rw [List.insertionSort, ih (fun y hy => h y (List.mem_cons_of_mem x hy))]
      cases xs with
      | nil => rfl
      | cons y ys =>
          rw [List.orderedInsert, if_pos]
          rw [h x (List.mem_cons_self _ _), h y (by simp)]

/-- C4 (amended): for records of equal absolute per-item profit the
descending sort reverses their relative input order rather than preserving
it (pandas realises `ascending=False` as the reverse of an ascending sort):
a snapshot of at most 8 records whose magnitudes are all equal yields the
reversed title sequence as labels. -/
theorem equal_magnitudes_reversed (df : List Book) (v : Rat)
    (hlen : df.length ≤ 8) (hv : ∀ b ∈ df, |b.price - b.cost| = v) :
    (profit_distribution df).1 = (df.map Book.title).reverse := by
  have hpairs : ∀ x ∈ df.map (fun b => (b.title, |b.price - b.cost|)),
      x.2 = v := by
    intro x hx
    obtain ⟨b, hb, rfl⟩ := List.mem_map.mp hx
    exact hv b hb
  have hsorted := insertionSort_of_const_val v _ hpairs
  have hlen2 : ¬ 8 < (sort_values_desc
      (df.map (fun b => (b.title, |b.price - b.cost|)))).length := by
    rw [sort_values_desc, hsorted, List.length_reverse, List.length_map]
    omega
  have hlen3 : ¬ 8 <
      ((df.map (fun b => (b.title, |b.price - b.cost|))).reverse).length := by
    rw [List.length_reverse, List.length_map]
    omega
  simp only [profit_distribution, sort_values_desc, hsorted, if_neg hlen3]
  rw [List.map_reverse, List.map_map]
  rfl

theorem equal_magnitudes_reversed_witness :
    (dfEqual.length ≤ 8 ∧ ∀ b ∈ dfEqual, |b.price - b.cost| = 5) ∧
    (profit_distribution dfEqual).1 = (dfEqual.map Book.title).reverse :=
  ⟨⟨by decide, by norm_num [dfEqual]⟩,
    equal_magnitudes_reversed dfEqual 5 (by decide) (by norm_num [dfEqual])⟩

/-- Ten records with pairwise distinct magnitudes 10 down to 1. -/
def df10 : List Book :=
  [⟨1, "B1", 0, 10⟩, ⟨2, "B2", 0, 9⟩, ⟨3, "B3", 0, 8⟩, ⟨4, "B4", 0, 7⟩,
   ⟨5, "B5", 0, 6⟩, ⟨6, "B6", 0, 5⟩, ⟨7, "B7", 0, 4⟩, ⟨8, "B8", 0, 3⟩,
   ⟨9, "B9", 0, 2⟩, ⟨10, "B10", 0, 1⟩]

/-- C5 counterexample: with 10 records the bucket entry is labelled
"Outros", not "Other" — no "Other" label occurs (the structure is otherwise
as claimed: 9 labels, bucket value 2 + 1 = the two lowest magnitudes). -/
theorem other_bucket_labelled_outros :
    (profit_distribution df10).1 =
      ["B1", "B2", "B3", "B4", "B5", "B6", "B7", "B8", "Outros"] ∧
    "Other" ∉ (profit_distribution df10).1 ∧
    (profit_distribution df10).2 =
      [10, 9, 8, 7, 6, 5, 4, 3, 2 + 1] := by
  have h : (profit_distribution df10).1 =
      ["B1", "B2", "B3", "B4", "B5", "B6", "B7", "B8", "Outros"] ∧
      (profit_distribution df10).2 = [10, 9, 8, 7, 6, 5, 4, 3, 2 + 1] := by
    constructor <;>
      norm_num [profit_distribution, df10, sort_values_desc,
        List.insertionSort, List.orderedInsert]
  refine ⟨h.1, ?_, h.2⟩
  rw [h.1]
  decide

/-- C5 (amended): with more than `top_n = 8` records, the aggregation keeps
the 8 largest magnitudes as individually labelled entries (label = title,
descending by magnitude) and buckets every remaining record into a single
final synthetic entry labelled "Outros" (not "Other") whose value is the
summed magnitude of the remaining records; with 10 records this yields
exactly 9 labels and the bucket sums the 2 lowest magnitudes. -/
theorem profit_distribution_top8_outros (df : List Book)
    (h : 8 < df.length) :
    ∃ prof : List (String × Rat),
      prof.Perm (df.map (fun b => (b.title, |b.price - b.cost|))) ∧
      prof.Pairwise (fun a b => b.2 ≤ a.2) ∧
      (profit_distribution df).1 = (prof.take 8).map Prod.fst ++ ["Outros"] ∧
      (profit_distribution df).2 =
        (prof.take 8).map Prod.snd ++ [((prof.drop 8).map Prod.snd).sum] ∧
      (profit_distribution df).1.length = 9 := by
  have hlenp : (sort_values_desc
      (df.map (fun b => (b.title, |b.price - b.cost|)))).length =
      df.length := by
    rw [sort_values_desc, List.length_reverse, List.length_insertionSort,
      List.length_map]
  have hcond : 8 < (sort_values_desc
      (df.map (fun b => (b.title, |b.price - b.cost|)))).length := by
    rw [hlenp]; exact h
  refine ⟨sort_values_desc (df.map (fun b => (b.title, |b.price - b.cost|))),
    ?_, ?_, ?_, ?_, ?_⟩
  · exact (List.reverse_perm _).trans (List.perm_insertionSort _ _)
  · rw [sort_values_desc, List.pairwise_reverse]
    exact List.sorted_insertionSort _ _
  · simp only [profit_distribution, if_pos hcond]
  · simp only [profit_distribution, if_pos hcond]
  · simp only [profit_distribution, if_pos hcond, List.length_append,
      List.length_map, List.length_take, List.length_singleton]
    omega

theorem profit_distribution_top8_outros_witness :
    8 < df10.length ∧
    ∃ prof : List (String × Rat),
      prof.Perm (df10.map (fun b => (b.title, |b.price - b.cost|))) ∧
      prof.Pairwise (fun a b => b.2 ≤ a.2) ∧
      (profit_distribution df10).1 = (prof.take 8).map Prod.fst ++ ["Outros"] ∧
      (profit_distribution df10).2 =
        (prof.take 8).map Prod.snd ++ [((prof.drop 8).map Prod.snd).sum] ∧
      (profit_distribution df10).1.length = 9 :=
  ⟨by decide, profit_distribution_top8_outros df10 (by decide)⟩

/-- C2 counterexample: the export button serialises `fetch_books_df()`
itself, so the encoded header row is the 4 raw store column names
`id,title,cost,price` — not the 6 display names the claim lists; no
`Display Index` or `Profit` column exists in the export at all. -/
theorem export_header_counterexample :
    to_csv_text [⟨1, "A", 2, 3⟩] = "id,title,cost,price\n1,A,2.00,3.00\n" ∧
    csv_header ≠ "Display Index,ID,Title,Cost,Price,Profit" ∧
    csv_header.data.count ',' = 3 := by
  refine ⟨?_, by decide, by decide⟩
  have h2 : fmt2 2 = "2.00" := by
    norm_num [fmt2]
    decide
  have h3 : fmt2 3 = "3.00" := by
    norm_num [fmt2]
    decide
  simp only [to_csv_text, String.join, csvRow, csvField, csvNeedsQuote,
    csvEscape, csv_header, h2, h3, List.map_cons, List.map_nil,
    List.foldl_cons, List.foldl_nil]
  decide

/-- C2 (amended): encoding is a pure function of the snapshot (hence
byte-for-byte deterministic); the byte output is the BOM `EF BB BF`
followed by the UTF-8 encoding of comma-delimited text; the header row
consists of the 4 raw column names `id,title,cost,price` (display index
and profit are absent from the export); each record contributes one row
whose float fields cost and price are `%.2f`-formatted while the integer
id is printed plainly. -/
theorem to_csv_bytes_format (df df2 : List Book) (hdet : df = df2) :
    to_csv_bytes df = to_csv_bytes df2 ∧
    (to_csv_bytes df).take 3 = [0xEF, 0xBB, 0xBF] ∧
    to_csv_text df = csv_header ++ "\n" ++ String.join (df.map csvRow) ∧
    (to_csv_bytes df).drop 3 =
      (to_csv_text df).toUTF8.toList.map (fun u => u.toNat) := by
  subst hdet
  exact ⟨rfl, rfl, rfl, rfl⟩

theorem to_csv_bytes_format_witness :
    (([⟨1, "A", 2, 3⟩] : List Book) = [⟨1, "A", 2, 3⟩]) ∧
    (to_csv_bytes [⟨1, "A", 2, 3⟩] = to_csv_bytes [⟨1, "A", 2, 3⟩] ∧
      (to_csv_bytes [⟨1, "A", 2, 3⟩]).take 3 = [0xEF, 0xBB, 0xBF] ∧
      to_csv_text [⟨1, "A", 2, 3⟩] =
        csv_header ++ "\n" ++ String.join ([⟨1, "A", 2, 3⟩].map csvRow) ∧
      (to_csv_bytes [⟨1, "A", 2, 3⟩]).drop 3 =
        (to_csv_text [⟨1, "A", 2, 3⟩]).toUTF8.toList.map (fun u => u.toNat)) :=
  ⟨rfl, to_csv_bytes_format [⟨1, "A", 2, 3⟩] [⟨1, "A", 2, 3⟩] rfl⟩

/-- C10: when the profit mode is active ("Lucro positivo" or "Lucro
negativo/zero"), every row of the filtered frame carries the added `profit`
column, holding price minus cost; under "Todos" no row carries it — the
shape of the filtered frame depends on the selected mode. -/
theorem filtered_frame_shape (df : List Book) (search mode : String) :
    (mode ≠ "Todos" →
      ∀ r ∈ apply_filters search mode df,
        r.profit = some (r.price - r.cost)) ∧
    (mode = "Todos" →
      ∀ r ∈ apply_filters search mode df, r.profit = none) := by
  constructor
  · intro hm r hr
    have hb : (mode != "Todos") = true := by simpa using hm
    simp only [apply_filters, hb, if_true] at hr
    by_cases hm2 : mode = "Lucro positivo"
    · rw [if_pos hm2] at hr
      obtain ⟨hr2, -⟩ := List.mem_filter.mp hr
      obtain ⟨r2, -, rfl⟩ := List.mem_map.mp hr2
      rfl
    · rw [if_neg hm2] at hr
      obtain ⟨hr2, -⟩ := List.mem_filter.mp hr
      obtain ⟨r2, -, rfl⟩ := List.mem_map.mp hr2
      rfl
  · intro hm r hr
    have hb : (mode != "Todos") = false := by simp [hm]
    simp only [apply_filters, hb, Bool.false_eq_true, if_false] at hr
    by_cases hs : (search != "") = true
    · rw [if_pos hs] at hr
      obtain ⟨hr2, -⟩ := List.mem_filter.mp hr
      obtain ⟨b, -, rfl⟩ := List.mem_map.mp hr2
      rfl
    · rw [if_neg hs] at hr
      obtain ⟨b, -, rfl⟩ := List.mem_map.mp hr
      rfl

theorem filtered_frame_shape_witness :
    ("Lucro positivo" : String) ≠ "Todos" ∧
    ∀ r ∈ apply_filters "" "Lucro positivo" dfEqual,
      r.profit = some (r.price - r.cost) :=
  ⟨by decide,
    (filtered_frame_shape dfEqual "" "Lucro positivo").1 (by decide)⟩

theorem matchPrefix_literal (pat : List Char) (hpat : '.' ∉ pat) :
    ∀ s : List Char,
      matchPrefix pat s =
        (pat.map Char.toLower).isPrefixOf (s.map Char.toLower) := by
  induction pat with
  | nil => intro s; cases s <;> rfl
  | cons p ps ih =>
      intro s
      cases s with
      | nil => rfl
      | cons c cs =>
          have hp : p ≠ '.' := fun h => hpat (h ▸ List.mem_cons_self p ps)
          have hps : '.' ∉ ps := fun h => hpat (List.mem_cons_of_mem p h)
          simp only [matchPrefix, charMatch, if_neg hp, List.map_cons,
            List.isPrefixOf, ih hps cs]

theorem reSearch_eq_any_suffix (pat : List Char) (s : List Char) :
    reSearch pat s =
      (List.range (s.length + 1)).any
        (fun i => matchPrefix pat (s.drop i)) := by
  induction s with
  | nil => simp [reSearch, show List.range 1 = [0] from rfl]
  | cons c cs ih =>
      have h1 : (List.range ((c :: cs).length + 1)).any
          (fun i => matchPrefix pat ((c :: cs).drop i)) =
          (matchPrefix pat (c :: cs) ||
            (List.range (cs.length + 1)).any
              (fun i => matchPrefix pat (cs.drop i))) := by
        rw [show (c :: cs).length + 1 = (cs.length + 1) + 1 from rfl,
          List.range_succ_eq_map, List.any_cons, List.any_map]
        have h2 : ((fun i => matchPrefix pat ((c :: cs).drop i)) ∘
            Nat.succ) = (fun i => matchPrefix pat (cs.drop i)) := by
          funext i
          simp [Function.comp, List.drop_succ_cons]
        rw [h2]
        simp [List.drop_zero]
      rw [reSearch, ih, h1]

theorem str_contains_ci_literal (pat s : String) (hpat : '.' ∉ pat.data) :
    str_contains_ci pat s = substring_ci pat s := by
  simp only [str_contains_ci, substring_ci]
  rw [reSearch_eq_any_suffix]
  simp only [List.length_map]
  congr 1
  funext i
  rw [matchPrefix_literal pat.data hpat (s.data.drop i), List.map_drop]

theorem search_step (search : String) (df : List Book) :
    (if (search != "") = true
      then (df.map Row.ofBook).filter
        (fun r => str_contains_ci search r.title)
      else df.map Row.ofBook) =
      (df.filter (fun b =>
        search == "" || str_contains_ci search b.title)).map Row.ofBook := by
  by_cases hs : search = ""
  · subst hs
    simp
  · have hb : (search != "") = true := by simp [hs]
    rw [if_pos hb, List.filter_map]
    congr 1
    refine List.filter_congr ?_
    intro b hb2
    simp [Function.comp, Row.ofBook, beq_eq_false_iff_ne.mpr hs]

theorem map_id_filter_congr (df : List Book) (p q : Book → Bool)
    (f : Book → Book) (hf : ∀ b, f b = b) (hpq : ∀ b, p b = q b) :
    (df.filter p).map f = df.filter q := by
  rw [List.map_congr_left (fun b _ => hf b), List.map_id',
    List.filter_congr (fun b _ => hpq b)]

theorem apply_filters_keeps (search mode : String) (df : List Book)
    (hmode : mode = "Todos" ∨ mode = "Lucro positivo" ∨
      mode = "Lucro negativo/zero") :
    (apply_filters search mode df).map Row.toBook =
      df.filter (fun b =>
        (search == "" || str_contains_ci search b.title) &&
          profitKeep mode b) := by
  rcases hmode with hm | hm | hm <;> subst hm
  · simp only [apply_filters, search_step]
    rw [if_neg (by decide), List.map_map]
    exact map_id_filter_congr df _ _ _ (fun b => rfl)
      (fun b => by simp [profitKeep])
  · simp only [apply_filters, search_step]
    rw [if_pos (by decide), if_pos trivial, List.filter_map, List.map_map,
      List.filter_map, List.map_map, List.filter_filter]
    exact map_id_filter_congr df _ _ _ (fun b => rfl)
      (fun b => by rw [Bool.and_comm]; exact rfl)
  · simp only [apply_filters, search_step]
    rw [if_pos (by decide), if_neg (by decide), List.filter_map,
      List.map_map, List.filter_map, List.map_map, List.filter_filter]
    exact map_id_filter_congr df _ _ _ (fun b => rfl)
      (fun b => by rw [Bool.and_comm]; exact rfl)

/-- C7 counterexample: with search text "." (a regex metacharacter) the
filter keeps a record whose title "abc" does not contain "." as a
substring at all — the search text is compiled as a regular expression,
not matched as a literal substring. -/
theorem search_is_regex_not_substring :
    (apply_filters "." "Todos" [⟨1, "abc", 0, 0⟩]).map Row.toBook =
      [⟨1, "abc", 0, 0⟩] ∧
    substring_ci "." "abc" = false := by
  constructor
  · rfl
  · decide

/-- C7 (amended): for search texts containing no regex metacharacter at
all (none of `. * + ? ( ) [ ] \x7b \x7d | ^ $ \` — on this domain the
embedded matcher agrees with `re`, every pattern character matching itself
case-insensitively), the filter keeps exactly the records satisfying the
conjunction of (i) when the search text is non-empty, the title contains
it as a case-insensitive substring (no error on no match), and (ii) the
profit-mode condition — "Lucro positivo" keeps profit > 0, "Lucro
negativo/zero" keeps profit ≤ 0, "Todos" imposes nothing.  For search
texts with metacharacters the code instead matches the search text as a
regular expression (see the counterexample, and `str_contains_ci` for the
behaviours outside the modelled fragment). -/
theorem apply_filters_spec (search mode : String) (df : List Book)
    (hmode : mode = "Todos" ∨ mode = "Lucro positivo" ∨
      mode = "Lucro negativo/zero")
    (hlit : ∀ c ∈ search.data, c ∉ regexMeta) :
    (apply_filters search mode df).map Row.toBook =
      df.filter (fun b =>
        (search == "" || substring_ci search b.title) &&
          profitKeep mode b) := by
  have hdot : '.' ∉ search.data := fun h => hlit '.' h (by decide)
  rw [apply_filters_keeps search mode df hmode]
  refine List.filter_congr ?_
  intro b hb
  rw [str_contains_ci_literal search b.title hdot]

/-- The three records of the spec's worked example. -/
def dfSpec : List Book :=
  [⟨1, "Dune", 10, 25⟩, ⟨2, "Foundation", 8, 8⟩, ⟨3, "Neuromancer", 12, 9⟩]

theorem apply_filters_spec_witness :
    (("Lucro positivo" = "Todos" ∨ ("Lucro positivo" : String) =
        "Lucro positivo" ∨ "Lucro positivo" = "Lucro negativo/zero") ∧
      ∀ c ∈ "une".data, c ∉ regexMeta) ∧
    (apply_filters "une" "Lucro positivo" dfSpec).map Row.toBook =
      dfSpec.filter (fun b =>
        (("une" : String) == "" || substring_ci "une" b.title) &&
          profitKeep "Lucro positivo" b) :=
  ⟨⟨Or.inr (Or.inl rfl), by decide⟩,
    apply_filters_spec "une" "Lucro positivo" dfSpec (Or.inr (Or.inl rfl))
      (by decide)⟩

end BookDashboard
